import Mathlib

/-!
Shallow embedding of the Google-scraper service (src/index.js) and proofs of
the specified properties.  The JavaScript program collects search-result
records into a buffer via callbacks, deduplicates them by title, truncates to
pages * 10, and serves the result over an Express /search endpoint.
-/

set_option maxHeartbeats 1000000

namespace Scrapper

/-- One normalized search-result entry (spec section 3, ResultRecord):
title, optional link, optional snippet, and the source page address.
An absent link or snippet is stored as null/undefined in JS; both are
modelled as none. -/
structure ResultRecord where
  title : String
  link : Option String
  snippet : Option String
  source : String
deriving DecidableEq

/-- A JavaScript number as used for the pages argument of scrapeGoogle:
some n is an integer, none models NaN (the result of a failed parseInt). -/
abbrev JSNum := Option Int

/-- Multiplication on JS numbers: NaN * n = NaN. -/
def jsMul (a : JSNum) (n : Int) : JSNum := a.map (· * n)

/-- The effective end position of arr.slice(0, e) on an array of length len,
per the ECMAScript ToIntegerOrInfinity clamping: NaN becomes 0, a negative
index counts from the end of the array, otherwise clamp to len. -/
def jsSliceEnd (len : Nat) (e : JSNum) : Nat :=
  match e with
  | none => 0
  | some k => if k < 0 then ((len : Int) + k).toNat else min k.toNat len

/-- arr.slice(0, e) on a list. -/
def jsSlice0 {α : Type} (l : List α) (e : JSNum) : List α :=
  l.take (jsSliceEnd l.length e)

/-- JavaScript parseInt(s) with no radix argument, on decimal inputs: skip
leading whitespace, read an optional sign and then the longest digit prefix;
the result is NaN (none) when no digit follows.  (The hexadecimal 0x prefix
form of parseInt is not modelled; no claim depends on it.) -/
def parseIntJS (s : String) : Option Int :=
  let cs := s.data.dropWhile fun c => c = ' ' ∨ c = '\t' ∨ c = '\n' ∨ c = '\r'
  let signed : Int × List Char :=
    match cs with
    | '-' :: rest => (-1, rest)
    | '+' :: rest => (1, rest)
    | _ => (1, cs)
  let ds := signed.2.takeWhile Char.isDigit
  if ds.isEmpty then none
  else some (signed.1 * (ds.foldl (fun acc c => acc * 10 + (c.toNat - '0'.toNat)) 0 : Nat))

/-- The dedup step of scrapeGoogle (src/index.js lines 175-178):
results.filter((result, index, self) =>
  index === self.findIndex(r => r.title === result.title)). -/
def dedupByTitle (results : List ResultRecord) : List ResultRecord :=
  (results.enum.filter fun p =>
    results.findIdx (fun r => r.title == p.2.title) == p.1).map Prod.snd

/-- The Result Normalizer: dedup by title then
uniqueResults.slice(0, pages * 10) (src/index.js line 180). -/
def scrapeGoogleNormalize (results : List ResultRecord) (pages : JSNum) : List ResultRecord :=
  jsSlice0 (dedupByTitle results) (jsMul pages 10)

/-- The parsed field arrays handed to the searchResult page-object callback by
the scraping engine: each CollectContent operation (title, link, snippet)
yields an array of strings, or is absent. -/
structure PageObject where
  title : Option (List String)
  link : Option (List String)
  snippet : Option (List String)
deriving DecidableEq

/-- The getPageObject collector callback (src/index.js lines 107-116):
if (pageObject.title && pageObject.title[0]) push
\x7btitle: title[0], link: link ? link[0] : null,
snippet: snippet ? snippet[0] : null, source: address\x7d.
An array is always truthy in JS, so the guard reduces to the first title
entry existing and being a non-empty string; link[0]/snippet[0] on an empty
array give undefined, folded with null into none. -/
def getPageObject (results : List ResultRecord) (pageObject : PageObject)
    (address : String) : List ResultRecord :=
  match pageObject.title with
  | none => results
  | some ts =>
    match ts.head? with
    | none => results
    | some t =>
      if t = "" then results
      else
        results ++ [{ title := t
                      link := pageObject.link.bind List.head?
                      snippet := pageObject.snippet.bind List.head?
                      source := address }]

/-- One iteration of the directTitles getAllItems callback
(src/index.js lines 155-165):
if (title && !results.some(r => r.title === title)) push
\x7btitle, link: null, snippet: null, source: "search results page"\x7d. -/
def directTitlesStep (results : List ResultRecord) (title : String) : List ResultRecord :=
  if title ≠ "" ∧ ¬ results.any (fun r => r.title == title) then
    results ++ [{ title := title, link := none, snippet := none
                  source := "search results page" }]
  else results

/-- The directTitles getAllItems callback: items.forEach over the heading
texts, threading the shared results buffer. -/
def directTitles (results : List ResultRecord) (items : List String) : List ResultRecord :=
  items.foldl directTitlesStep results

/-- The Root pagination descriptor (src/index.js lines 118-125). -/
structure Pagination where
  queryString : String
  begin : Int
  «end» : Int
  offset : Int
deriving DecidableEq

/-- The descriptor built by scrapeGoogle:
queryString "start", begin 0, end (pages - 1) * 10, offset 10. -/
def rootPagination (pages : Int) : Pagination :=
  { queryString := "start", begin := 0, «end» := (pages - 1) * 10, offset := 10 }

/-- Modelled from the spec: the external scraping engine (out of scope per
spec section 1) generates the start query values from the pagination
descriptor, beginning at begin and stepping by offset while not
exceeding end. -/
def Pagination.offsets (d : Pagination) : List Int :=
  if 0 < d.offset ∧ d.begin ≤ d.«end» then
    (List.range (((d.«end» - d.begin) / d.offset).toNat + 1)).map
      fun i : Nat => d.begin + d.offset * i
  else []

/-- Uppercase hexadecimal digit for a value below 16. -/
def hexDigit (n : Nat) : Char :=
  "0123456789ABCDEF".toList.getD n '0'

/-- Two-digit uppercase hex rendering of a byte value. -/
def hexByte (b : Nat) : String :=
  String.mk [hexDigit (b / 16 % 16), hexDigit (b % 16)]

/-- UTF-8 byte values of a character, computed on Nat code points. -/
def utf8Bytes (c : Char) : List Nat :=
  let n := c.toNat
  if n < 0x80 then [n]
  else if n < 0x800 then [0xC0 + n / 64, 0x80 + n % 64]
  else if n < 0x10000 then [0xE0 + n / 4096, 0x80 + n / 64 % 64, 0x80 + n % 64]
  else [0xF0 + n / 262144, 0x80 + n / 4096 % 64, 0x80 + n / 64 % 64, 0x80 + n % 64]

/-- The characters encodeURIComponent leaves unescaped. -/
def uriUnreserved (c : Char) : Bool :=
  c.isAlphanum || c = '-' || c = '_' || c = '.' || c = '!' || c = '~' ||
    c = '*' || c = '\'' || c = '(' || c = ')'

/-- JavaScript encodeURIComponent: percent-encode the UTF-8 bytes of every
character outside the unreserved set. -/
def encodeURIComponent (s : String) : String :=
  s.toList.foldl
    (fun acc c =>
      if uriUnreserved c then acc.push c
      else acc ++ String.join ((utf8Bytes c).map fun b => "%" ++ hexByte b))
    ""

/-- The fixed outbound header set of the scrape configuration
(src/index.js lines 90-100). -/
structure ConfigHeaders where
  userAgent : String
  acceptLanguage : String
  accept : String
  referer : String
  secFetchDest : String
  secFetchMode : String
  secFetchSite : String
deriving DecidableEq

/-- The configuration object passed to the external engine
(src/index.js lines 83-102). -/
structure ScrapeConfig where
  baseSiteUrl : String
  startUrl : String
  concurrency : Nat
  maxRetries : Nat
  delay : Nat
  timeout : Nat
  headers : ConfigHeaders
  removeStyleAndScriptTags : Bool
deriving DecidableEq

/-- The Scrape Configuration Builder: the config literal of scrapeGoogle,
a pure function of the validated query and the language code. -/
def buildConfig (query : String) (lang : String) : ScrapeConfig :=
  { baseSiteUrl := "https://www.google.com"
    startUrl := "https://www.google.com/search?q=" ++ encodeURIComponent query ++ "&hl=" ++ lang
    concurrency := 2
    maxRetries := 2
    delay := 5000
    timeout := 15000
    headers :=
      { userAgent := "Mozilla/5.0 (Windows NT 10.0; Win64; x64) AppleWebKit/537.36 (KHTML, like Gecko) Chrome/120.0.0.0 Safari/537.36"
        acceptLanguage := lang ++ "-US," ++ lang ++ ";q=0.9"
        accept := "text/html,application/xhtml+xml,application/xml;q=0.9,image/webp,*/*;q=0.8"
        referer := "https://www.google.com/"
        secFetchDest := "document"
        secFetchMode := "navigate"
        secFetchSite := "same-origin" }
    removeStyleAndScriptTags := true }

/-- Outcome of the validation phase of the /search handler: either the
request is rejected with HTTP 400 before any scraping, or the external
engine is invoked with the given arguments. -/
inductive SearchStep where
  | reject
  | invoke (query : String) (pages : JSNum) (lang : String)
deriving DecidableEq

/-- JavaScript String.prototype.trim, modelled structurally on the character
list: strip whitespace from both ends.  (JS also strips a few exotic Unicode
whitespace characters; the claims only exercise the ASCII ones.) -/
def jsTrim (s : String) : String :=
  String.mk (((s.data.dropWhile Char.isWhitespace).reverse.dropWhile
    Char.isWhitespace).reverse)

/-- Validation and argument extraction of app.get("/search")
(src/index.js lines 30-47):
const \x7b q: query, pages = 1, lang = "en" \x7d = req.query;
if (!query || query.trim() === "") return 400;
otherwise scrapeGoogle(query, parseInt(pages), lang) is invoked.
An absent pages parameter defaults to the number 1, which parseInt maps
back to 1. -/
def searchValidate (q : Option String) (pagesParam : Option String)
    (langParam : Option String) : SearchStep :=
  match q with
  | none => .reject
  | some query =>
    if query = "" then .reject
    else if jsTrim query = "" then .reject
    else
      .invoke query
        (match pagesParam with
         | none => some 1
         | some s => parseIntJS s)
        (langParam.getD "en")

/-- An HTTP response of the /search endpoint: status code and result list. -/
structure SearchResponse where
  status : Nat
  results : List ResultRecord
deriving DecidableEq

/-- The /search handler on the path where the external scrape succeeds.  The
buffer collected by the engine's callbacks is passed as an oracle; on
rejection the handler answers 400 with no results, otherwise 200 with the
normalized buffer. -/
def searchEndpoint (q : Option String) (pagesParam : Option String)
    (langParam : Option String) (buffer : List ResultRecord) : SearchResponse :=
  match searchValidate q pagesParam langParam with
  | .reject => { status := 400, results := [] }
  | .invoke _ pages _ => { status := 200, results := scrapeGoogleNormalize buffer pages }

/-- A list of 25 records with pairwise distinct titles, used for the
truncation example of the spec. -/
def sampleUniqueRecords : List ResultRecord :=
  (List.range 25).map fun i => { title := toString i, link := none, snippet := none, source := "" }

/-! Helper lemmas about findIdx, find? and dedupByTitle. -/

theorem find?_of_findIdx {α : Type} {p : α → Bool} :
    ∀ {l : List α} {i : Nat}, l.findIdx p = i → i < l.length → l.find? p = l[i]? := by
  intro l
  induction l with
  | nil => intro i _ h; simp at h
  | cons a t ih =>
    intro i hf h
    rw [List.findIdx_cons] at hf
    by_cases hp : p a
    · simp only [hp, cond_true] at hf
      subst hf
      simp [List.find?_cons_of_pos _ hp]
    · simp only [Bool.not_eq_true] at hp
      simp only [hp, cond_false] at hf
      cases i with
      | zero => omega
      | succ j =>
        have ht : t.findIdx p = j := by omega
        rw [List.find?_cons_of_neg _ (by simp [hp]), List.getElem?_cons_succ]
        exact ih ht (by simpa using h)

/-- Membership in the dedup output, characterized by the first-occurrence
index condition of the JS filter. -/
theorem mem_dedupByTitle {l : List ResultRecord} {x : ResultRecord} :
    x ∈ dedupByTitle l ↔
      ∃ i : Nat, l[i]? = some x ∧ l.findIdx (fun r => r.title == x.title) = i := by
  unfold dedupByTitle
  simp only [List.mem_map, List.mem_filter]
  constructor
  · rintro ⟨⟨i, y⟩, ⟨hm, hf⟩, rfl⟩
    exact ⟨i, List.mk_mem_enum_iff_getElem?.mp hm, by simpa using hf⟩
  · rintro ⟨i, hi, hf⟩
    exact ⟨(i, x), ⟨List.mk_mem_enum_iff_getElem?.mpr hi, by simpa using hf⟩, rfl⟩

/-- The dedup output is a subsequence of the input. -/
theorem dedupByTitle_sublist (l : List ResultRecord) : (dedupByTitle l).Sublist l := by
  unfold dedupByTitle
  have h2 := (List.filter_sublist (p := fun p : Nat × ResultRecord =>
    l.findIdx (fun r => r.title == p.2.title) == p.1) l.enum).map Prod.snd
  rwa [List.enum_map_snd] at h2

/-- Every record of the dedup output is the first record of the input
carrying its title. -/
theorem dedupByTitle_first_occ {l : List ResultRecord} {x : ResultRecord}
    (hx : x ∈ dedupByTitle l) : l.find? (fun r => r.title == x.title) = some x := by
  obtain ⟨i, hi, hf⟩ := mem_dedupByTitle.mp hx
  obtain ⟨hlen, hget⟩ := List.getElem?_eq_some_iff.mp hi
  rw [find?_of_findIdx hf hlen, hi]

/-- Every input title is still represented in the dedup output. -/
theorem dedupByTitle_covers {l : List ResultRecord} {r : ResultRecord} (hr : r ∈ l) :
    ∃ x ∈ dedupByTitle l, x.title = r.title := by
  have hex : ∃ y ∈ l, (fun s => s.title == r.title) y = true := ⟨r, hr, by simp⟩
  have hlt := List.findIdx_lt_length_of_exists hex
  have hp : ((l.get ⟨l.findIdx fun s => s.title == r.title, hlt⟩).title == r.title) = true :=
    List.findIdx_getElem (w := hlt)
  have heq : (l.get ⟨l.findIdx fun s => s.title == r.title, hlt⟩).title = r.title := by
    simpa using hp
  refine ⟨l.get ⟨l.findIdx fun s => s.title == r.title, hlt⟩, ?_, heq⟩
  apply mem_dedupByTitle.mpr
  refine ⟨l.findIdx fun s => s.title == r.title, List.getElem?_eq_getElem hlt, ?_⟩
  have hfun : (fun s : ResultRecord =>
      s.title == (l.get ⟨l.findIdx fun s => s.title == r.title, hlt⟩).title)
        = fun s => s.title == r.title := by
    funext s
    rw [heq]
  rw [hfun]

/-- The titles of the dedup output are pairwise distinct. -/
theorem dedupByTitle_titles_nodup (l : List ResultRecord) :
    ((dedupByTitle l).map ResultRecord.title).Nodup := by
  have h0 : (l.enum.map Prod.fst).Pairwise (· < ·) := by
    rw [List.enum_map_fst]
    exact List.pairwise_lt_range _
  have h1 : l.enum.Pairwise fun a b => a.1 < b.1 := List.pairwise_map.mp h0
  have h2 : (l.enum.filter fun p =>
      l.findIdx (fun r => r.title == p.2.title) == p.1).Pairwise fun a b => a.1 < b.1 :=
    h1.sublist (List.filter_sublist _)
  have h3 : (l.enum.filter fun p =>
      l.findIdx (fun r => r.title == p.2.title) == p.1).Pairwise
        fun a b => a.2.title ≠ b.2.title := by
    refine List.Pairwise.imp_of_mem ?_ h2
    intro a b ha hb hlt hteq
    have hfa : l.findIdx (fun r => r.title == a.2.title) = a.1 := by
      simpa using (List.mem_filter.mp ha).2
    have hfb : l.findIdx (fun r => r.title == b.2.title) = b.1 := by
      simpa using (List.mem_filter.mp hb).2
    have hfun : (fun r : ResultRecord => r.title == a.2.title)
        = fun r => r.title == b.2.title := by
      funext s
      rw [hteq]
    rw [hfun, hfb] at hfa
    omega
  unfold dedupByTitle
  rw [List.map_map, List.Nodup, List.pairwise_map]
  exact h3

/-- Dedup leaves a list with pairwise distinct titles unchanged. -/
theorem dedupByTitle_eq_self {l : List ResultRecord}
    (h : (l.map ResultRecord.title).Nodup) : dedupByTitle l = l := by
  unfold dedupByTitle
  have hall : ∀ p ∈ l.enum,
      (l.findIdx (fun r => r.title == p.2.title) == p.1) = true := by
    rw [List.forall_mem_enum]
    intro i hi
    simp only [beq_iff_eq]
    rw [List.findIdx_eq hi]
    refine ⟨by simp, ?_⟩
    intro j hj
    simp only [beq_eq_false_iff_ne]
    intro hcontra
    have hmap : (l.map ResultRecord.title).get ⟨j, by simpa using Nat.lt_trans hj hi⟩
        = (l.map ResultRecord.title).get ⟨i, by simpa using hi⟩ := by
      simpa using hcontra
    have := (h.get_inj_iff).mp hmap
    have hji : j = i := congrArg Fin.val this
    omega
  rw [List.filter_eq_self.mpr hall, List.enum_map_snd]

theorem take_min {α : Type} (l : List α) (n : Nat) :
    l.take (min n l.length) = l.take n := by
  rcases Nat.le_total n l.length with h | h
  · rw [Nat.min_eq_left h]
  · rw [Nat.min_eq_right h, List.take_length, List.take_of_length_le h]

/-- For an integer page count p ≥ 0, the normalizer is plain dedup followed
by List.take (p * 10). -/
theorem scrapeGoogleNormalize_eq_take {l : List ResultRecord} {p : Int} (hp : 0 ≤ p) :
    scrapeGoogleNormalize l (some p) = (dedupByTitle l).take (p * 10).toNat := by
  unfold scrapeGoogleNormalize jsSlice0 jsSliceEnd jsMul
  have hnn : ¬ p * 10 < 0 := by omega
  simp only [Option.map_some']
  rw [if_neg hnn]
  exact take_min _ _

/-- Titles of the normalized output are pairwise distinct. -/
theorem scrapeGoogleNormalize_titles_nodup (l : List ResultRecord) (pages : JSNum) :
    ((scrapeGoogleNormalize l pages).map ResultRecord.title).Nodup := by
  have hsub : (scrapeGoogleNormalize l pages).Sublist (dedupByTitle l) := by
    unfold scrapeGoogleNormalize jsSlice0
    exact List.take_sublist _ _
  exact (dedupByTitle_titles_nodup l).sublist (hsub.map ResultRecord.title)

/-- Length bound of the normalized output for p ≥ 0. -/
theorem scrapeGoogleNormalize_length_le {l : List ResultRecord} {p : Int} (hp : 0 ≤ p) :
    ((scrapeGoogleNormalize l (some p)).length : Int) ≤ p * 10 := by
  rw [scrapeGoogleNormalize_eq_take hp]
  have h1 : ((dedupByTitle l).take (p * 10).toNat).length ≤ (p * 10).toNat := by
    simp
  omega

/-- Applying the normalizer to its own output changes nothing (p ≥ 0). -/
theorem scrapeGoogleNormalize_idem {l : List ResultRecord} {p : Int} (hp : 0 ≤ p) :
    scrapeGoogleNormalize (scrapeGoogleNormalize l (some p)) (some p)
      = scrapeGoogleNormalize l (some p) := by
  have hnodup := scrapeGoogleNormalize_titles_nodup l (some p)
  rw [scrapeGoogleNormalize_eq_take hp, dedupByTitle_eq_self hnodup]
  apply List.take_of_length_le
  rw [scrapeGoogleNormalize_eq_take hp, List.length_take]
  exact Nat.min_le_left _ _

/-- Record with title "A" for the concrete dedup example of the spec. -/
def recA : ResultRecord := { title := "A", link := none, snippet := none, source := "" }

/-- Record with title "B" for the concrete dedup example of the spec. -/
def recB : ResultRecord := { title := "B", link := none, snippet := none, source := "" }

/-- The spec's example buffer [A, B, A]. -/
def bufferABA : List ResultRecord := [recA, recB, recA]

/-- C1: for every input buffer, the Normalizer's dedup step retains only the
first occurrence of each distinct title under exact string equality — every
output record is the first input record carrying its title, and every input
title remains represented — preserving the original relative order (the
output is a subsequence of the input); in particular the buffer with titles
[A, B, A] normalizes to titles [A, B]. -/
theorem dedup_keeps_first_occurrences :
    (∀ l : List ResultRecord,
        (dedupByTitle l).Sublist l
        ∧ (∀ x ∈ dedupByTitle l, l.find? (fun r => r.title == x.title) = some x)
        ∧ (∀ r ∈ l, ∃ x ∈ dedupByTitle l, x.title = r.title))
    ∧ dedupByTitle bufferABA = [recA, recB] := by
  constructor
  · intro l
    exact ⟨dedupByTitle_sublist l, fun _ hx => dedupByTitle_first_occ hx,
      fun _ hr => dedupByTitle_covers hr⟩
  · decide

/-- Witness for C1 at the concrete buffer [A, B, A]: recA is in the dedup
output and is the first input record titled "A"; the duplicated title "A" of
the final input record is still represented. -/
theorem dedup_keeps_first_occurrences_witness :
    bufferABA.find? (fun r => r.title == recA.title) = some recA
    ∧ (∃ x ∈ dedupByTitle bufferABA, x.title = recB.title) := by
  refine ⟨?_, ?_⟩
  · exact (dedup_keeps_first_occurrences.1 bufferABA).2.1 recA (by decide)
  · exact (dedup_keeps_first_occurrences.1 bufferABA).2.2 recB (by decide)

/-- C2: for every collected buffer and every page count p ≥ 1 of the spec's
SearchRequest domain, the normalized result contains no two records with the
same title and its length never exceeds p * 10; with 25 unique-title records
and pages = 2 the output has exactly 20 records. -/
theorem normalized_nodup_and_bounded :
    (∀ (buffer : List ResultRecord) (p : Int), 1 ≤ p →
        ((scrapeGoogleNormalize buffer (some p)).map ResultRecord.title).Nodup
        ∧ ((scrapeGoogleNormalize buffer (some p)).length : Int) ≤ p * 10)
    ∧ (scrapeGoogleNormalize sampleUniqueRecords (some 2)).length = 20 := by
  constructor
  · intro buffer p hp
    exact ⟨scrapeGoogleNormalize_titles_nodup buffer (some p),
      scrapeGoogleNormalize_length_le (by omega)⟩
  · decide

/-- Witness for C2 at the concrete buffer [A, B, A] with pages = 1. -/
theorem normalized_nodup_and_bounded_witness :
    ((scrapeGoogleNormalize bufferABA (some 1)).map ResultRecord.title).Nodup
    ∧ ((scrapeGoogleNormalize bufferABA (some 1)).length : Int) ≤ 1 * 10 :=
  normalized_nodup_and_bounded.1 bufferABA 1 (by norm_num)

/-- C5: the Normalizer is idempotent on the spec's SearchRequest domain
(page count p ≥ 1): applying dedup-then-truncate to its own output yields
the same sequence. -/
theorem normalizer_idempotent :
    ∀ (buffer : List ResultRecord) (p : Int), 1 ≤ p →
      scrapeGoogleNormalize (scrapeGoogleNormalize buffer (some p)) (some p)
        = scrapeGoogleNormalize buffer (some p) := by
  intro buffer p hp
  exact scrapeGoogleNormalize_idem (by omega)

/-- Witness for C5 at the concrete buffer [A, B, A] with pages = 1. -/
theorem normalizer_idempotent_witness :
    scrapeGoogleNormalize (scrapeGoogleNormalize bufferABA (some 1)) (some 1)
      = scrapeGoogleNormalize bufferABA (some 1) :=
  normalizer_idempotent bufferABA 1 (by norm_num)

/-- C4: for every page count p ≥ 1, the pagination descriptor built by the
Configuration Builder generates the start offsets 0, 10, ..., (p-1)*10:
they are exactly the first p multiples of 10, so they begin at 0, step by
10 and end at (p-1)*10; for pages = 3 they are exactly [0, 10, 20]. -/
theorem pagination_offsets_spec :
    (∀ p : Int, 1 ≤ p →
        (rootPagination p).offsets = (List.range p.toNat).map (fun i : Nat => (10 : Int) * i)
        ∧ (rootPagination p).offsets.head? = some 0
        ∧ (rootPagination p).offsets.getLast? = some ((p - 1) * 10))
    ∧ (rootPagination 3).offsets = [0, 10, 20] := by
  constructor
  · intro p hp
    have h1 : (0 : Int) ≤ p - 1 := by omega
    have hcond : (0 : Int) < 10 ∧ (0 : Int) ≤ (p - 1) * 10 :=
      ⟨by norm_num, mul_nonneg h1 (by norm_num)⟩
    have hmain : (rootPagination p).offsets
        = (List.range p.toNat).map fun i : Nat => (10 : Int) * i := by
      unfold Pagination.offsets
      simp only [rootPagination]
      rw [if_pos hcond, sub_zero, Int.mul_ediv_cancel _ (by norm_num : (10 : Int) ≠ 0)]
      have ht : (p - 1).toNat + 1 = p.toNat := by omega
      rw [ht]
      simp
    refine ⟨hmain, ?_, ?_⟩
    · obtain ⟨m, hm⟩ : ∃ m, p.toNat = m + 1 := ⟨p.toNat - 1, by omega⟩
      rw [hmain, hm, List.range_succ_eq_map]
      simp
    · rw [hmain, List.getLast?_map, List.getLast?_range,
        if_neg (by omega : ¬ p.toNat = 0)]
      have hc : ((p.toNat - 1 : Nat) : Int) = p - 1 := by omega
      simp only [Option.map_some']
      rw [hc]
      ring_nf
  · decide

/-- Witness for C4 at the concrete page count 3. -/
theorem pagination_offsets_spec_witness :
    (rootPagination 3).offsets = (List.range (3 : Int).toNat).map (fun i : Nat => (10 : Int) * i)
    ∧ (rootPagination 3).offsets.head? = some 0
    ∧ (rootPagination 3).offsets.getLast? = some (((3 : Int) - 1) * 10) :=
  pagination_offsets_spec.1 3 (by norm_num)

/-- C6: for every page object delivered to the searchResult collector with
page address a, when the title field is present and its first element is
truthy (a non-empty string) exactly one record with that title, the first
link or null, the first snippet or null, and source a is appended to the
buffer; otherwise the buffer is left unchanged. -/
theorem getPageObject_appends_iff_title_truthy :
    (∀ (buf : List ResultRecord) (po : PageObject) (a t : String),
        po.title.bind List.head? = some t → t ≠ "" →
        getPageObject buf po a =
          buf ++ [{ title := t, link := po.link.bind List.head?,
                    snippet := po.snippet.bind List.head?, source := a }])
    ∧ (∀ (buf : List ResultRecord) (po : PageObject) (a : String),
        (po.title.bind List.head? = none ∨ po.title.bind List.head? = some "") →
        getPageObject buf po a = buf) := by
  constructor
  · intro buf po a t ht hne
    cases hpo : po.title with
    | none => rw [hpo] at ht; simp at ht
    | some ts =>
      rw [hpo] at ht
      simp only [Option.some_bind] at ht
      simp [getPageObject, hpo, ht, hne]
  · intro buf po a h
    cases hpo : po.title with
    | none => simp [getPageObject, hpo]
    | some ts =>
      rw [hpo] at h
      simp only [Option.some_bind] at h
      cases hh : ts.head? with
      | none => simp [getPageObject, hpo, hh]
      | some t =>
        rw [hh] at h
        rcases h with h | h
        · simp at h
        · have ht : t = "" := by simpa using h
          simp [getPageObject, hpo, hh, ht]

/-- Witness for C6: a page object with title ["T"] and link ["L"] appends
one full record; a page object whose first title entry is the empty string
(falsy) leaves the buffer unchanged. -/
theorem getPageObject_appends_iff_title_truthy_witness :
    getPageObject [] { title := some ["T"], link := some ["L"], snippet := none } "addr"
      = [{ title := "T", link := some "L", snippet := none, source := "addr" }]
    ∧ getPageObject [recA] { title := some [""], link := none, snippet := none } "addr"
      = [recA] := by
  constructor
  · simpa using getPageObject_appends_iff_title_truthy.1 []
      { title := some ["T"], link := some ["L"], snippet := none } "addr" "T"
      (by decide) (by decide)
  · exact getPageObject_appends_iff_title_truthy.2 [recA]
      { title := some [""], link := none, snippet := none } "addr" (Or.inr (by decide))

/-- C7: processing the heading texts delivered to the directTitles collector,
each text causes exactly one appended record with that title, null link,
null snippet and source "search results page" when the text is non-empty and
no record of the current buffer carries that exact title, and causes no
change otherwise; the pre-existing buffer contents are always preserved
unchanged as a prefix of the output. -/
theorem directTitles_append_iff_new_nonempty :
    (∀ (buf : List ResultRecord) (t : String), t ≠ "" → (∀ r ∈ buf, r.title ≠ t) →
        directTitlesStep buf t =
          buf ++ [{ title := t, link := none, snippet := none,
                    source := "search results page" }])
    ∧ (∀ (buf : List ResultRecord) (t : String),
        t = "" ∨ (∃ r ∈ buf, r.title = t) → directTitlesStep buf t = buf)
    ∧ (∀ (buf : List ResultRecord) (items : List String),
        ∃ ext, directTitles buf items = buf ++ ext) := by
  refine ⟨?_, ?_, ?_⟩
  · intro buf t hne hnew
    unfold directTitlesStep
    rw [if_pos]
    refine ⟨hne, ?_⟩
    simp only [List.any_eq_true, not_exists, not_and]
    intro r hr
    simpa using hnew r hr
  · intro buf t h
    unfold directTitlesStep
    rw [if_neg]
    rcases h with rfl | ⟨r, hr, hrt⟩
    · rintro ⟨h1, _⟩
      exact h1 rfl
    · rintro ⟨_, h2⟩
      exact h2 (List.any_eq_true.mpr ⟨r, hr, by simpa using hrt⟩)
  · have hstep : ∀ (buf : List ResultRecord) (t : String),
        ∃ e, directTitlesStep buf t = buf ++ e := by
      intro buf t
      unfold directTitlesStep
      split
      · exact ⟨_, rfl⟩
      · exact ⟨[], by simp⟩
    intro buf items
    induction items generalizing buf with
    | nil => exact ⟨[], by simp [directTitles]⟩
    | cons t ts ih =>
      obtain ⟨e1, he1⟩ := hstep buf t
      obtain ⟨e2, he2⟩ := ih (directTitlesStep buf t)
      refine ⟨e1 ++ e2, ?_⟩
      unfold directTitles at he2 ⊢
      rw [List.foldl_cons, he2, he1, List.append_assoc]

/-- Witness for C7: a fresh non-empty heading is appended; a heading equal
to an existing title is dropped; the buffer stays a prefix under a list of
headings. -/
theorem directTitles_append_iff_new_nonempty_witness :
    directTitlesStep [] "T"
      = [{ title := "T", link := none, snippet := none, source := "search results page" }]
    ∧ directTitlesStep [recA] "A" = [recA]
    ∧ ∃ ext, directTitles [recA] ["A", "C"] = [recA] ++ ext := by
  refine ⟨?_, ?_, ?_⟩
  · simpa using directTitles_append_iff_new_nonempty.1 [] "T" (by decide) (by simp)
  · exact directTitles_append_iff_new_nonempty.2.1 [recA] "A"
      (Or.inr ⟨recA, by simp, rfl⟩)
  · exact directTitles_append_iff_new_nonempty.2.2 [recA] ["A", "C"]

/-- C3: for every /search request whose q parameter is absent or trims to the
empty string, validation rejects the request: the outcome is reject — not
invoke, so the external engine (scrapeGoogle / Scraper.scrape) is never
called — and the handler answers HTTP 400 with no results.  The validator
searchValidate is a pure function of the request, so the validation itself
has no side effects. -/
theorem empty_query_rejected_without_scrape :
    ∀ (q pagesParam langParam : Option String) (buffer : List ResultRecord),
      (q = none ∨ ∃ s, q = some s ∧ jsTrim s = "") →
      searchValidate q pagesParam langParam = SearchStep.reject
      ∧ searchEndpoint q pagesParam langParam buffer = { status := 400, results := [] } := by
  intro q pp lp buffer h
  have hv : searchValidate q pp lp = SearchStep.reject := by
    rcases h with rfl | ⟨s, rfl, hs⟩
    · rfl
    · by_cases he : s = ""
      · simp [searchValidate, he]
      · simp [searchValidate, he, hs]
  refine ⟨hv, ?_⟩
  unfold searchEndpoint
  rw [hv]

/-- Witness for C3 at the absent query and at the all-whitespace query. -/
theorem empty_query_rejected_without_scrape_witness :
    (searchValidate none (some "2") none = SearchStep.reject
      ∧ searchEndpoint none (some "2") none [recA] = { status := 400, results := [] })
    ∧ (searchValidate (some "  ") none none = SearchStep.reject
      ∧ searchEndpoint (some "  ") none none [recA] = { status := 400, results := [] }) :=
  ⟨empty_query_rejected_without_scrape none (some "2") none [recA] (Or.inl rfl),
    empty_query_rejected_without_scrape (some "  ") none none [recA]
      (Or.inr ⟨"  ", rfl, by decide⟩)⟩

/-- C8: the Scrape Configuration Builder is a pure function (a plain Lean
function of the validated query and the language code) whose output fixes
concurrency 2, max retries 2, inter-request delay 5000 ms, timeout 15000 ms,
and an Accept-Language header keyed to the lang parameter as
lang-US,lang;q=0.9. -/
theorem buildConfig_fields :
    ∀ (query lang : String),
      (buildConfig query lang).concurrency = 2
      ∧ (buildConfig query lang).maxRetries = 2
      ∧ (buildConfig query lang).delay = 5000
      ∧ (buildConfig query lang).timeout = 15000
      ∧ (buildConfig query lang).headers.acceptLanguage = lang ++ "-US," ++ lang ++ ";q=0.9" :=
  fun _ _ => ⟨rfl, rfl, rfl, rfl, rfl⟩

/-- C9 is false as stated: the query " " is a non-empty string, yet /search
answers HTTP 400 rather than 200, because validation trims the query before
testing it. -/
theorem search_nonempty_query_counterexample :
    (" " : String) ≠ ""
    ∧ (searchEndpoint (some " ") (some "1") none []).status = 400
    ∧ (searchEndpoint (some " ") (some "1") none []).status ≠ 200 := by
  refine ⟨by decide, by decide, by decide⟩

/-- C9 amended: for every query string whose trimmed value is non-empty and
every pages parameter parsing to an integer p ≥ 1, when the external scrape
succeeds /search answers HTTP 200 with at most p * 10 results. -/
theorem search_trimmed_query_ok :
    ∀ (q pp : String) (lp : Option String) (buffer : List ResultRecord) (p : Int),
      jsTrim q ≠ "" → parseIntJS pp = some p → 1 ≤ p →
      (searchEndpoint (some q) (some pp) lp buffer).status = 200
      ∧ ((searchEndpoint (some q) (some pp) lp buffer).results.length : Int) ≤ p * 10 := by
  intro q pp lp buffer p hq hpp hp
  have hqne : q ≠ "" := by
    intro h
    subst h
    exact hq rfl
  have hv : searchValidate (some q) (some pp) lp
      = SearchStep.invoke q (some p) (lp.getD "en") := by
    simp [searchValidate, hqne, hq, hpp]
  have he : searchEndpoint (some q) (some pp) lp buffer
      = { status := 200, results := scrapeGoogleNormalize buffer (some p) } := by
    unfold searchEndpoint
    rw [hv]
  rw [he]
  exact ⟨rfl, scrapeGoogleNormalize_length_le (by omega)⟩

/-- Witness for the amended C9 at the query "x" with pages "2". -/
theorem search_trimmed_query_ok_witness :
    (searchEndpoint (some "x") (some "2") none bufferABA).status = 200
    ∧ ((searchEndpoint (some "x") (some "2") none bufferABA).results.length : Int) ≤ 2 * 10 :=
  search_trimmed_query_ok "x" "2" none bufferABA 2 (by decide) (by decide) (by norm_num)

/-- C10: the pages parameter is never validated: for every request with a
query that trims non-empty and a pages value on which parseInt yields NaN,
/search does not answer 400 — on scrape success it answers HTTP 200 with an
empty results array, because slice(0, NaN * 10) truncates to nothing. -/
theorem nan_pages_yields_200_empty :
    ∀ (q pp : String) (lp : Option String) (buffer : List ResultRecord),
      jsTrim q ≠ "" → parseIntJS pp = none →
      searchEndpoint (some q) (some pp) lp buffer = { status := 200, results := [] } := by
  intro q pp lp buffer hq hpp
  have hqne : q ≠ "" := by
    intro h
    subst h
    exact hq rfl
  have hv : searchValidate (some q) (some pp) lp
      = SearchStep.invoke q none (lp.getD "en") := by
    simp [searchValidate, hqne, hq, hpp]
  unfold searchEndpoint
  rw [hv]
  rfl

/-- Witness for C10 at the query "x" with the unparsable pages value "abc"
and a non-empty collected buffer. -/
theorem nan_pages_yields_200_empty_witness :
    searchEndpoint (some "x") (some "abc") none bufferABA
      = { status := 200, results := [] } :=
  nan_pages_yields_200_empty "x" "abc" none bufferABA (by decide) (by decide)

end Scrapper
